import Mathlib

/-!
Verification of the WebLEDMatrix repository's grid/frame data model.

The embedding follows `src/web-led-matrix/__init__.py` (the PySimpleGUI
pixel-grid editor) and `src/web_led_matrix/app.py` (the Streamlit identify
utility).  JSON values loaded from files are modelled by `JVal`; JSON
numbers are modelled as integers (a non-integral grid cell is never valid
except for floats equal to 0/1, which behave exactly like the equal
integer in every modelled operation), durations are modelled as exact
rationals with `float()`'s string parsing embedded (`pyFloatParse`), and
Python booleans — which compare equal to 0/1 under Python `==` and
satisfy `cell in (0, 1)` — are a separate constructor.  Exceptions are modelled by
`Except PyErr`; GUI-only effects (window updates, popups) are dropped, and
file I/O is modelled at the level of the JSON value written/read.
-/

namespace WebLEDMatrix

/-- A JSON value as produced by `json.load` (objects are omitted: every
modelled operation treats a JSON object exactly as it treats the other
non-array, non-numeric values, namely as invalid input). -/
inductive JVal where
  | jnull : JVal
  | jbool : Bool → JVal
  | jnum : Int → JVal
  | jstr : String → JVal
  | jarr : List JVal → JVal

/-- Python exception kinds raised by the modelled code.
`typeError` carries the source message "Duration must be a number" (and
similar); `valueError` the grid/duration/index messages; messages are
dropped in the model. -/
inductive PyErr where
  | typeError : PyErr
  | valueError : PyErr
  | indexError : PyErr
deriving DecidableEq

/-- Python `cell in (0, 1)`: true for the numbers 0 and 1 and — because
`True == 1` and `False == 0` in Python — for both booleans. -/
def isBinaryCell : JVal → Bool
  | .jnum q => decide (q = 0) || decide (q = 1)
  | .jbool _ => true
  | _ => false

/-- `_is_valid_grid(grid, width, height)` from `web-led-matrix/__init__.py`:
a list of `width` lists, each of length `height` with every cell in {0,1}. -/
def _is_valid_grid (grid : JVal) (width height : Nat) : Bool :=
  match grid with
  | .jarr cols =>
      decide (cols.length = width) &&
      cols.all (fun col =>
        match col with
        | .jarr cells => decide (cells.length = height) && cells.all isBinaryCell
        | _ => false)
  | _ => false

/-- `_is_valid_frames(raw, width, height)`: a non-empty list of valid grids. -/
def _is_valid_frames (raw : JVal) (width height : Nat) : Bool :=
  match raw with
  | .jarr frames =>
      decide (0 < frames.length) && frames.all (fun f => _is_valid_grid f width height)
  | _ => false

/-- A Python grid value as held by the editor: a list of column lists.
(The editor only ever stores genuine lists of lists in `grid`.) -/
abbrev GridL := List (List JVal)

/-- Injection of a Python list-of-lists into the JSON value universe. -/
def gridToJVal (g : GridL) : JVal := .jarr (g.map .jarr)

/-- The cells of one column value, defined when it is an array. -/
def colCells : JVal → Option (List JVal)
  | .jarr cells => some cells
  | _ => none

/-- Extract each column's cell list, defined when every column is an array. -/
def asGridList : List JVal → Option GridL
  | [] => some []
  | c :: cs =>
      match colCells c, asGridList cs with
      | some cells, some rest => some (cells :: rest)
      | _, _ => none

/-- Extract the list-of-lists from a JSON value when it is an array of
arrays (as `_is_valid_grid` guarantees). -/
def asGrid : JVal → Option GridL
  | .jarr cols => asGridList cols
  | _ => none

/-- Extract every grid of a list of JSON values (defined when each is an
array of arrays). -/
def asGrids : List JVal → Option (List GridL)
  | [] => some []
  | g :: gs =>
      match asGrid g, asGrids gs with
      | some gl, some rest => some (gl :: rest)
      | _, _ => none

/-- `[body(i) for i in range(n)]` for a body whose evaluation may raise:
elements are evaluated in order and any exception aborts the whole
comprehension. -/
def comprehension : (n : Nat) → (Nat → Option α) → Option (List α)
  | 0, _ => some []
  | n + 1, f =>
      match comprehension n f, f n with
      | some as, some a => some (as ++ [a])
      | _, _ => none

/-- The decimal value of an ASCII digit character. -/
def digitVal (c : Char) : Option Nat :=
  if c.isDigit then some (c.toNat - '0'.toNat) else none

/-- Consume the rest of a Python `digitpart` after its first digit:
further digits, with single underscores allowed between two digits
(`1_000` parses, `1__0`, `1_`, `_1` do not).  Returns the digits read and
the unconsumed input. -/
def parseDigitsRest : List Nat → List Char → List Nat × List Char
  | acc, [] => (acc, [])
  | acc, c :: cs =>
      match digitVal c with
      | some d => parseDigitsRest (acc ++ [d]) cs
      | none =>
          match c, cs with
          | '_', c2 :: cs2 =>
              match digitVal c2 with
              | some d => parseDigitsRest (acc ++ [d]) cs2
              | none => (acc, c :: cs)
          | _, _ => (acc, c :: cs)

/-- A Python `digitpart`: at least one digit, underscores between digits. -/
def parseDigitpart : List Char → Option (List Nat × List Char)
  | [] => none
  | c :: cs =>
      match digitVal c with
      | some d => some (parseDigitsRest [d] cs)
      | none => none

/-- The natural number denoted by a digit list (most significant first). -/
def digitsToNat (ds : List Nat) : Nat := ds.foldl (fun a d => a * 10 + d) 0

/-- The exponent suffix after `e`/`E`: an optional sign and a digitpart
that must consume the remaining input. -/
def parseExpPart : List Char → Option Int
  | '+' :: r =>
      match parseDigitpart r with
      | some (ds, []) => some (digitsToNat ds : Int)
      | _ => none
  | '-' :: r =>
      match parseDigitpart r with
      | some (ds, []) => some (-(digitsToNat ds : Int))
      | _ => none
  | r =>
      match parseDigitpart r with
      | some (ds, []) => some (digitsToNat ds : Int)
      | _ => none

/-- The exact rational denoted by integer digits and fraction digits. -/
def mantissaValue (ip frac : List Nat) : Rat :=
  (digitsToNat ip : Rat) + (digitsToNat frac : Rat) / ((10 : Rat) ^ frac.length)

/-- Finish a float literal after its mantissa: either the input ends, or
an `e`/`E` exponent consumes the rest. -/
def finishNumber (ip frac : List Nat) : List Char → Option Rat
  | [] => some (mantissaValue ip frac)
  | c :: rest =>
      if c = 'e' ∨ c = 'E' then
        (parseExpPart rest).map fun e => mantissaValue ip frac * (10 : Rat) ^ e
      else none

/-- An unsigned Python float literal: `digitpart [. [digitpart]]` or
`. digitpart`, then an optional exponent; the whole input must be
consumed (so `1.`, `.5`, `1.e5`, `1_0e1_0` parse and `.`, `1e`, `1._5`
do not). -/
def parseUnsigned (l : List Char) : Option Rat :=
  match l with
  | '.' :: rest =>
      match parseDigitpart rest with
      | some (frac, rest2) => finishNumber [] frac rest2
      | none => none
  | _ =>
      match parseDigitpart l with
      | some (ip, rest) =>
          match rest with
          | '.' :: rest2 =>
              match parseDigitpart rest2 with
              | some (frac, rest3) => finishNumber ip frac rest3
              | none => finishNumber ip [] rest2
          | _ => finishNumber ip [] rest
      | none => none

/-- The whitespace characters `str.strip()`-stripped by `float(str)`
(ASCII subset). -/
def isPyStripChar (c : Char) : Bool :=
  c = ' ' ∨ c = '\t' ∨ c = '\n' ∨ c = '\r' ∨ c = '\x0b' ∨ c = '\x0c'

/-- Strip leading and trailing whitespace. -/
def pyStrip (l : List Char) : List Char :=
  ((l.dropWhile isPyStripChar).reverse.dropWhile isPyStripChar).reverse

/-- CPython `float(s)` on a string: strip whitespace, read an optional
sign and a float literal, to an exact rational (`float("2.5")` parses to
5/2, `float("abc")` raises `ValueError`, modelled as `none`).  Outside
this model's scope, documented rather than modelled: the special
spellings `inf`/`infinity`/`nan` (IEEE values that are not real numbers —
the duration the spec describes is a real number), rounding of the exact
decimal value to the nearest binary double together with the
overflow/underflow behavior at the extremes of the double range, and
non-ASCII digits/whitespace. -/
def pyFloatParse (s : String) : Option Rat :=
  match pyStrip s.toList with
  | '+' :: rest => parseUnsigned rest
  | '-' :: rest => (parseUnsigned rest).map Neg.neg
  | l => parseUnsigned l

/-- Python `float(value)` on the modelled value universe: numbers coerce
to themselves, booleans to 0/1 (`float(True) = 1.0`), strings are parsed
as float literals by `pyFloatParse`, and everything else raises
`TypeError` (modelled as `none`, like a failed string parse, since the
duration setter maps both failures to the same `TypeError`). -/
def floatCoerce : JVal → Option Rat
  | .jnum q => some (q : Rat)
  | .jbool b => some (if b then 1 else 0)
  | .jstr s => pyFloatParse s
  | _ => none

/-- `Frame.duration` setter: coerce with `float`, re-raising coercion
failures as `TypeError`, then reject non-positive values with `ValueError`. -/
def set_duration (value : JVal) : Except PyErr Rat :=
  match floatCoerce value with
  | none => .error .typeError
  | some q => if q ≤ 0 then .error .valueError else .ok q

/-- One animation frame: its grid and its (already coerced) duration. -/
structure Frame where
  grid : GridL
  duration : Rat

/-- The class-wide validation context `Frame.__width` / `Frame.__height`
(a side channel overwritten by every `Frame.__init__`). -/
structure FrameCtx where
  width : Nat
  height : Nat
deriving DecidableEq

/-- `Frame.grid` setter: validates the candidate against the *current*
class-wide width/height and raises `ValueError` on mismatch. -/
def frame_set_grid (ctx : FrameCtx) (f : Frame) (value : GridL) : Except PyErr Frame :=
  if _is_valid_grid (gridToJVal value) ctx.width ctx.height then .ok { f with grid := value }
  else .error .valueError

/-- `Frame.__init__(grid, duration=1.0)`.  The constructor first overwrites
the class-wide context with `len(grid)` and `len(grid[0]) if grid else 0`,
then runs the `grid` setter (which therefore validates against the
dimensions just derived from the candidate itself) and the `duration`
setter.  The prior context `_ctx0` is discarded unread.  The second
component of the result is the class-wide context after construction,
which is overwritten even when construction raises.  Callers that omit
`duration` pass the Python default `1.0`, i.e. `.jnum 1`. -/
def frame_init (_ctx0 : FrameCtx) (grid : GridL) (duration : JVal) :
    Except PyErr Frame × FrameCtx :=
  let ctx : FrameCtx := ⟨grid.length, (grid.headD []).length⟩
  let res : Except PyErr Frame :=
    if _is_valid_grid (gridToJVal grid) ctx.width ctx.height then
      match set_duration duration with
      | .ok d => .ok ⟨grid, d⟩
      | .error e => .error e
    else .error .valueError
  (res, ctx)

/-- The `PixelGrid` editor state: validated width/height, the frame
sequence, the current-frame cursor, the displayed grid, and the class-wide
`Frame` validation context (carried explicitly since the Python code keeps
it in mutable class attributes). The `window` / GUI members are not
modelled. -/
structure PGState where
  width : Nat
  height : Nat
  frames : List Frame
  currentFrame : Nat
  grid : GridL
  frameCtx : FrameCtx

/-- `PixelGrid.frames` setter: rejects an empty list (the model's typing
already guarantees a list of Frames). -/
def pg_set_frames (st : PGState) (value : List Frame) : Except PyErr PGState :=
  if value.isEmpty then .error .typeError
  else .ok { st with frames := value }

/-- `PixelGrid.current_frame` setter: the value must be an index into the
frames list (`0 <= value < len(frames)`; the lower bound is automatic for
`Nat`). -/
def pg_set_current_frame (st : PGState) (value : Nat) : Except PyErr PGState :=
  if value < st.frames.length then .ok { st with currentFrame := value }
  else .error .valueError

/-- `PixelGrid.grid` setter: validates against the editor's width/height,
stores the grid, and then writes it through to the current frame via the
`Frame.grid` setter (skipped when the frames list is empty/falsy). -/
def pg_set_grid (st : PGState) (value : GridL) : Except PyErr PGState :=
  if _is_valid_grid (gridToJVal value) st.width st.height then
    let st1 : PGState := { st with grid := value }
    if st1.frames.isEmpty then .ok st1
    else
      match st1.frames.get? st1.currentFrame with
      | none => .error .indexError
      | some f =>
          match frame_set_grid st1.frameCtx f value with
          | .ok f' => .ok { st1 with frames := st1.frames.set st1.currentFrame f' }
          | .error e => .error e
  else .error .valueError

/-- Python `1 - cell` on a grid cell: defined for numbers and booleans
(`1 - True == 0`, an int); other operand types raise `TypeError`. -/
def oneMinus : JVal → Except PyErr JVal
  | .jnum q => .ok (.jnum (1 - q))
  | .jbool b => .ok (.jnum (1 - (if b then (1 : Int) else 0)))
  | _ => .error .typeError

/-- `PixelGrid._toggle_pixel((col, row))`: reads the cell, computes
`1 - cell`, rebuilds the whole grid by comprehension over
`range(width) x range(height)` (fresh lists, copy-on-write), and assigns it
through the `grid` setter.  Out-of-range reads raise `IndexError`.  The
button-refresh GUI call is not modelled. -/
def _toggle_pixel (st : PGState) (col row : Nat) : Except PyErr PGState :=
  match st.grid.get? col with
  | none => .error .indexError
  | some c =>
      match c.get? row with
      | none => .error .indexError
      | some cell =>
          match oneMinus cell with
          | .error e => .error e
          | .ok newv =>
              match comprehension st.width (fun c' =>
                      comprehension st.height (fun r' =>
                        if c' = col ∧ r' = row then some newv
                        else (st.grid.get? c').bind (fun cc => cc.get? r'))) with
              | none => .error .indexError
              | some newGrid => pg_set_grid st newGrid

/-- `PixelGrid.add_frame()`: deep-copies the current grid (the identity on
pure values), wraps it in a new `Frame` with the default duration, appends
it, moves the cursor to the new last index and re-assigns the grid.
GUI refresh calls are not modelled. -/
def add_frame (st : PGState) : Except PyErr PGState :=
  let new_grid := st.grid
  match frame_init st.frameCtx new_grid (.jnum 1) with
  | (.error e, _) => .error e
  | (.ok frm, ctx) =>
      let st1 : PGState := { st with frameCtx := ctx }
      match pg_set_frames st1 (st1.frames ++ [frm]) with
      | .error e => .error e
      | .ok st2 =>
          match pg_set_current_frame st2 (st2.frames.length - 1) with
          | .error e => .error e
          | .ok st3 => pg_set_grid st3 frm.grid

/-- `PixelGrid._load_frame()`: re-assigns the current frame's grid through
the `grid` setter (GUI refresh not modelled). -/
def _load_frame (st : PGState) : Except PyErr PGState :=
  match st.frames.get? st.currentFrame with
  | none => .error .indexError
  | some frm => pg_set_grid st frm.grid

/-- `PixelGrid.prev_frame()`: decrement the cursor and reload, but only
when the cursor is strictly positive (no-op at the first frame). -/
def prev_frame (st : PGState) : Except PyErr PGState :=
  if 0 < st.currentFrame then
    match pg_set_current_frame st (st.currentFrame - 1) with
    | .error e => .error e
    | .ok st1 => _load_frame st1
  else .ok st

/-- `PixelGrid.next_frame()`: increment the cursor and reload, but only
when `current_frame < len(frames) - 1` (no-op at the last frame; for
`Nat`, `length - 1` truncates at 0 exactly like the Python comparison
against `-1` when the list were empty). -/
def next_frame (st : PGState) : Except PyErr PGState :=
  if st.currentFrame < st.frames.length - 1 then
    match pg_set_current_frame st (st.currentFrame + 1) with
    | .error e => .error e
    | .ok st1 => _load_frame st1
  else .ok st

/-- `PixelGrid._handle_Export`: the printed value — the list of all
frames' grids when more than one frame exists, else the single bare grid
(`self.frames[0].grid`, an `IndexError` on an empty list). -/
def _handle_Export (st : PGState) : Except PyErr JVal :=
  if 1 < st.frames.length then
    .ok (.jarr (st.frames.map (fun f => gridToJVal f.grid)))
  else
    match st.frames.get? 0 with
    | none => .error .indexError
    | some f => .ok (gridToJVal f.grid)

/-- `PixelGrid._handle_Export_to_File`: the JSON value passed to
`json.dump`, computed by the same expression as `_handle_Export`
(file-dialog interaction and the file write itself are not modelled:
serialization is represented by the JSON value written). -/
def _handle_Export_to_File (st : PGState) : Except PyErr JVal :=
  if 1 < st.frames.length then
    .ok (.jarr (st.frames.map (fun f => gridToJVal f.grid)))
  else
    match st.frames.get? 0 with
    | none => .error .indexError
    | some f => .ok (gridToJVal f.grid)

/-- The comprehension `[Frame(copy.deepcopy(g)) for g in grids]`,
threading the class-wide context through the successive constructions.
A non-list `g` (or a non-list column) makes `len` raise inside
`Frame.__init__`; the comprehension is fully evaluated before `frames` is
assigned, so an exception here leaves `frames` untouched (only the
class-wide context has been overwritten). -/
def buildFrames : List JVal → FrameCtx → Except PyErr (List Frame) × FrameCtx
  | [], ctx => (.ok [], ctx)
  | g :: gs, ctx =>
      match asGrid g with
      | none => (.error .typeError, ctx)
      | some gl =>
          match frame_init ctx gl (.jnum 1) with
          | (.error e, ctx') => (.error e, ctx')
          | (.ok f, ctx') =>
              match buildFrames gs ctx' with
              | (.error e, ctx'') => (.error e, ctx'')
              | (.ok fs, ctx'') => (.ok (f :: fs), ctx'')

/-- The body of `_handle_Load_from_File` after classification: build the
new frames, assign them, reset the cursor and reload.  The surrounding
`try/except` turns any exception into an error popup, returning whatever
state the partially-executed body left behind; the Boolean records whether
the success popup was reached. -/
def loadGrids (st : PGState) (grids : List JVal) : PGState × Bool :=
  match buildFrames grids st.frameCtx with
  | (.error _, ctx') => ({ st with frameCtx := ctx' }, false)
  | (.ok fs, ctx') =>
      let st0 : PGState := { st with frameCtx := ctx' }
      match pg_set_frames st0 fs with
      | .error _ => (st0, false)
      | .ok st1 =>
          match pg_set_current_frame st1 0 with
          | .error _ => (st1, false)
          | .ok st2 =>
              match _load_frame st2 with
              | .error _ => (st2, false)
              | .ok st3 => (st3, true)

/-- `PixelGrid._handle_Load_from_File` on an already-parsed JSON value
`raw` (file-dialog interaction and `json.load` parse errors, which leave
the state untouched, are not modelled): classify `raw` as a single grid or
a list of grids; on either validation failing, report `Invalid format` and
return with the state untouched. -/
def _handle_Load_from_File (st : PGState) (raw : JVal) : PGState × Bool :=
  if _is_valid_grid raw st.width st.height then
    loadGrids st [raw]
  else if _is_valid_frames raw st.width st.height then
    match raw with
    | .jarr gs => loadGrids st gs
    | _ => (st, false)
  else (st, false)

/-- A controller handle from the external library, as used by
`web_led_matrix/app.py`: only its `name` is inspected here. -/
structure Controller where
  name : String
deriving DecidableEq

/-- The pieces of `st.session_state` that `handle_identify` writes: the
`processing` flag and the launched identify threads, each recorded by the
controller it targets (the thread body just calls `controller.identify()`). -/
structure IdentifySession where
  processing : Bool
  identifyThreads : List Controller
deriving DecidableEq

/-- The sentinel selection value `'All'`. -/
def allSentinel : String := "All"

/-- Python `names.index(sel)`: the first index whose element equals `sel`,
`None` standing for the `ValueError` raised when absent. -/
def listIndex (sel : String) : List String → Option Nat
  | [] => none
  | x :: xs => if x = sel then some 0 else (listIndex sel xs).map (· + 1)

/-- `MatrixControllerApp.handle_identify` with the select-box value passed
explicitly: for the sentinel, one thread per controller in list order;
otherwise `controller_names.index(selected)` (a `ValueError` when absent)
picks the single matching controller.  Thread start and `st.rerun()` are
not modelled beyond recording the launched threads. -/
def handle_identify (controllers : List Controller) (selected : String)
    (_s : IdentifySession) : Except PyErr IdentifySession :=
  if selected = allSentinel then
    .ok ⟨true, controllers⟩
  else
    match listIndex selected (controllers.map Controller.name) with
    | none => .error .valueError
    | some i =>
        match controllers.get? i with
        | none => .error .indexError
        | some c => .ok ⟨true, [c]⟩

/-- The editor's reachable-state invariant: positive dimensions, a
non-empty frame list, an in-range cursor, every frame's grid (and the
displayed grid) valid for the editor's dimensions, and the class-wide
`Frame` context agreeing with the editor's dimensions (as re-established
by every `Frame` construction the editor itself performs). -/
def WF (st : PGState) : Bool :=
  decide (0 < st.width) && decide (0 < st.height) &&
  !st.frames.isEmpty && decide (st.currentFrame < st.frames.length) &&
  st.frames.all (fun f => _is_valid_grid (gridToJVal f.grid) st.width st.height) &&
  _is_valid_grid (gridToJVal st.grid) st.width st.height &&
  decide (st.frameCtx = ⟨st.width, st.height⟩)

/-- `WF` holds on the error branch too: an uncaught exception ends the
event loop, so only `ok` results constrain the invariant. -/
def WFE : Except PyErr PGState → Bool
  | .ok st => WF st
  | .error _ => true

/-- A concrete 1x1 editor state (as built by `PixelGrid(1, 1)`). -/
def exSt1 : PGState :=
  { width := 1
    height := 1
    frames := [⟨[[.jnum 0]], 1⟩]
    currentFrame := 0
    grid := [[.jnum 0]]
    frameCtx := ⟨1, 1⟩ }

/-- A concrete 2x1 editor state with two frames. -/
def exSt2 : PGState :=
  { width := 2
    height := 1
    frames := [⟨[[.jnum 0], [.jnum 1]], 1⟩, ⟨[[.jnum 1], [.jnum 0]], 2⟩]
    currentFrame := 1
    grid := [[.jnum 1], [.jnum 0]]
    frameCtx := ⟨2, 1⟩ }

/-- Cell lookup with defaults (the default is irrelevant at in-range
indices; used only to state pointwise facts about grids). -/
def cellD (g : GridL) (c r : Nat) : JVal := (g.getD c []).getD r (.jnum 0)

/-- Closed form of the grid built by `_toggle_pixel`'s comprehension. -/
def rebuildGrid (g : GridL) (w h col row : Nat) (newv : JVal) : GridL :=
  (List.range w).map fun c =>
    (List.range h).map fun r =>
      if c = col ∧ r = row then newv else cellD g c r

/-- The numeric value of a grid cell as Python's integer arithmetic and
`==` see it: numbers are themselves and booleans are 0/1 (`True == 1`).
This is the cell-level counterpart of `floatCoerce` (which additionally
parses strings, a case that cannot reach a validated grid cell). -/
def cellNum : JVal → Option Int
  | .jnum q => some q
  | .jbool b => some (if b then 1 else 0)
  | _ => none

/-- `1 - cell` as a total function on the binary cells (numbers and
booleans); agrees with `oneMinus` wherever the latter succeeds. -/
def flipCell (cell : JVal) : JVal := .jnum (1 - (cellNum cell).getD 0)

/-- The state produced by a successful `add_frame` (closed form). -/
def addFrameResult (st : PGState) : PGState :=
  { st with
    frames := st.frames ++ [⟨st.grid, 1⟩]
    currentFrame := st.frames.length
    frameCtx := ⟨st.width, st.height⟩ }

/-- Python `==` restricted to grid cells (numbers and booleans): a boolean
compares equal to its numeric value (`True == 1`, `False == 0`). -/
def pyCellEq (a b : JVal) : Bool :=
  match cellNum a, cellNum b with
  | some x, some y => decide (x = y)
  | _, _ => false

/-- Python `==` on grid columns (pointwise `pyCellEq`). -/
def rowPyEq : List JVal → List JVal → Bool
  | [], [] => true
  | a :: as, b :: bs => pyCellEq a b && rowPyEq as bs
  | _, _ => false

/-- Python `==` on grids (pointwise `pyCellEq`). -/
def gridPyEq : GridL → GridL → Bool
  | [], [] => true
  | a :: as, b :: bs => rowPyEq a b && gridPyEq as bs
  | _, _ => false

/-- Does the cell hold a plain number (not a boolean)?  Grids drawn in the
editor itself contain only the ints 0 and 1; booleans can enter a grid
only through a loaded JSON file containing `true`/`false`. -/
def numCell : JVal → Bool
  | .jnum _ => true
  | _ => false

/-- A grid whose cells are all plain numbers. -/
def numGrid (g : GridL) : Bool := g.all fun c => c.all numCell

/-- A concrete controller list for the identify utility. -/
def exControllers : List Controller := [⟨"alpha"⟩, ⟨"beta"⟩]

/-- A concrete non-sentinel selection naming the second controller. -/
def exSel : String := "beta"

/-! ### Helper lemmas about the validators and conversions -/

theorem valid_gridToJVal_iff (g : GridL) (w h : Nat) :
    _is_valid_grid (gridToJVal g) w h = true ↔
      g.length = w ∧ ∀ col ∈ g, col.length = h ∧ ∀ cell ∈ col, isBinaryCell cell = true := by
  simp [gridToJVal, _is_valid_grid, List.all_eq_true, List.mem_map]

theorem asGrid_gridToJVal (g : GridL) : asGrid (gridToJVal g) = some g := by
  induction g with
  | nil => rfl
  | cons c cs ih =>
      simp only [asGrid, gridToJVal] at ih ⊢
      simp only [List.map_cons, asGridList, colCells]
      rw [ih]

theorem asGridList_of_cols (cols : List JVal)
    (h : ∀ c ∈ cols, ∃ cells, c = .jarr cells) :
    ∃ gl, asGridList cols = some gl ∧ gl.map JVal.jarr = cols := by
  induction cols with
  | nil => exact ⟨[], rfl, rfl⟩
  | cons c cs ih =>
      obtain ⟨cells, rfl⟩ := h c (List.mem_cons_self c cs)
      obtain ⟨gl, hgl, hmap⟩ := ih (fun d hd => h d (List.mem_cons_of_mem _ hd))
      refine ⟨cells :: gl, ?_, by simp [hmap]⟩
      simp [asGridList, colCells, hgl]

theorem asGrid_of_valid {raw : JVal} {w h : Nat}
    (hv : _is_valid_grid raw w h = true) :
    ∃ gl, asGrid raw = some gl ∧ gridToJVal gl = raw := by
  cases raw with
  | jarr cols =>
      have hcols : ∀ c ∈ cols, ∃ cells, c = .jarr cells := by
        intro c hc
        have hall := (Bool.and_eq_true_iff.mp hv).2
        have hc' := List.all_eq_true.mp hall c hc
        cases c with
        | jarr cells => exact ⟨cells, rfl⟩
        | jnull => simp at hc'
        | jbool b => simp at hc'
        | jnum q => simp at hc'
        | jstr s => simp at hc'
      obtain ⟨gl, hgl, hmap⟩ := asGridList_of_cols cols hcols
      exact ⟨gl, by simpa [asGrid] using hgl, by simpa [gridToJVal] using hmap⟩
  | jnull => simp [_is_valid_grid] at hv
  | jbool b => simp [_is_valid_grid] at hv
  | jnum q => simp [_is_valid_grid] at hv
  | jstr s => simp [_is_valid_grid] at hv

theorem comprehension_eq_map (n : Nat) (f : Nat → Option α) (g : Nat → α)
    (h : ∀ i, i < n → f i = some (g i)) :
    comprehension n f = some ((List.range n).map g) := by
  induction n with
  | zero => rfl
  | succ n ih =>
      have h1 := ih (fun i hi => h i (Nat.lt_succ_of_lt hi))
      have h2 := h n (Nat.lt_succ_self n)
      simp [comprehension, h1, h2, List.range_succ]

theorem pg_set_grid_ok {st : PGState} {v : GridL} {f : Frame}
    (hv : _is_valid_grid (gridToJVal v) st.width st.height = true)
    (hctx : st.frameCtx = ⟨st.width, st.height⟩)
    (hf : st.frames[st.currentFrame]? = some f) :
    pg_set_grid st v =
      .ok { st with
              grid := v
              frames := st.frames.set st.currentFrame { f with grid := v } } := by
  have hne : st.frames.isEmpty = false := by
    cases hfr : st.frames with
    | nil => rw [hfr] at hf; simp at hf
    | cons a as => rfl
  simp [pg_set_grid, hv, hne, hf, frame_set_grid, hctx]

theorem getD_mem {α : Type} {l : List α} {n : Nat} (h : n < l.length) (d : α) :
    l.getD n d ∈ l := by
  rw [List.getD_eq_getElem l d h]
  exact List.getElem_mem h

theorem map_range_getD {α : Type} (l : List α) (d : α) :
    (List.range l.length).map (fun i => l.getD i d) = l := by
  induction l with
  | nil => rfl
  | cons x xs ih =>
      simp only [List.length_cons, List.range_succ_eq_map, List.map_cons, List.map_map]
      exact congrArg (x :: ·) ih

theorem map_range_cellD (g : GridL) (h : Nat)
    (hcols : ∀ col ∈ g, col.length = h) :
    ((List.range g.length).map fun c => (List.range h).map fun r => cellD g c r) = g := by
  have step : ((List.range g.length).map fun c => (List.range h).map fun r => cellD g c r)
      = ((List.range g.length).map (fun c => g.getD c [])).map
          (fun cl => (List.range h).map fun r => cl.getD r (.jnum 0)) := by
    rw [List.map_map]
    rfl
  rw [step, map_range_getD g []]
  have : ∀ cl ∈ g, ((List.range h).map fun r => cl.getD r (.jnum 0)) = cl := by
    intro cl hcl
    rw [← hcols cl hcl]
    exact map_range_getD cl (.jnum 0)
  calc g.map (fun cl => (List.range h).map fun r => cl.getD r (.jnum 0))
      = g.map id := List.map_congr_left this
    _ = g := List.map_id g

theorem cellD_binary {g : GridL} {w h : Nat}
    (hg : _is_valid_grid (gridToJVal g) w h = true)
    {c r : Nat} (hc : c < w) (hr : r < h) :
    isBinaryCell (cellD g c r) = true := by
  rw [valid_gridToJVal_iff] at hg
  obtain ⟨hlen, hcols⟩ := hg
  have hcmem : g.getD c [] ∈ g := getD_mem (by omega) []
  obtain ⟨hclen, hcells⟩ := hcols _ hcmem
  exact hcells _ (getD_mem (by omega) _)

theorem rebuild_valid {g : GridL} {w h : Nat}
    (hg : _is_valid_grid (gridToJVal g) w h = true)
    {newv : JVal} (hb : isBinaryCell newv = true) (col row : Nat) :
    _is_valid_grid (gridToJVal (rebuildGrid g w h col row newv)) w h = true := by
  rw [valid_gridToJVal_iff]
  refine ⟨by simp [rebuildGrid], ?_⟩
  intro cl hcl
  simp only [rebuildGrid, List.mem_map, List.mem_range] at hcl
  obtain ⟨c, hc, rfl⟩ := hcl
  refine ⟨by simp, ?_⟩
  intro cell hcell
  simp only [List.mem_map, List.mem_range] at hcell
  obtain ⟨r, hr, rfl⟩ := hcell
  by_cases hcr : c = col ∧ r = row
  · simpa [hcr] using hb
  · simpa [hcr] using cellD_binary hg hc hr

theorem cellD_rebuild {g : GridL} {w h : Nat} (newv : JVal) {c r : Nat}
    (hc : c < w) (hr : r < h) (col row : Nat) :
    cellD (rebuildGrid g w h col row newv) c r =
      if c = col ∧ r = row then newv else cellD g c r := by
  have h1 : (rebuildGrid g w h col row newv).getD c [] =
      (List.range h).map fun r' => if c = col ∧ r' = row then newv else cellD g c r' := by
    have : (rebuildGrid g w h col row newv).getD c [] =
        ((List.range w).map fun c' => (List.range h).map fun r' =>
          if c' = col ∧ r' = row then newv else cellD g c' r').getD c [] := rfl
    rw [this, List.getD_eq_getElem _ _ (by simpa using hc)]
    simp [hc]
  rw [cellD, h1, List.getD_eq_getElem _ _ (by simpa using hr)]
  simp [hr]

theorem flip_binary {cell : JVal} (hb : isBinaryCell cell = true) :
    oneMinus cell = .ok (flipCell cell) ∧ isBinaryCell (flipCell cell) = true := by
  cases cell with
  | jnum q =>
      have hq : q = 0 ∨ q = 1 := by simpa [isBinaryCell] using hb
      refine ⟨rfl, ?_⟩
      rcases hq with rfl | rfl <;> rfl
  | jbool b => cases b <;> exact ⟨rfl, rfl⟩
  | jnull => simp [isBinaryCell] at hb
  | jstr s => simp [isBinaryCell] at hb
  | jarr xs => simp [isBinaryCell] at hb

theorem WF_iff (st : PGState) :
    WF st = true ↔
      0 < st.width ∧ 0 < st.height ∧ st.frames ≠ [] ∧
      st.currentFrame < st.frames.length ∧
      (∀ f ∈ st.frames, _is_valid_grid (gridToJVal f.grid) st.width st.height = true) ∧
      _is_valid_grid (gridToJVal st.grid) st.width st.height = true ∧
      st.frameCtx = ⟨st.width, st.height⟩ := by
  simp [WF, List.all_eq_true, List.isEmpty_iff, and_assoc]

theorem WF_set_grid {st : PGState} {v : GridL} {f : Frame}
    (hwf : WF st = true)
    (hv : _is_valid_grid (gridToJVal v) st.width st.height = true)
    (_hf : st.frames[st.currentFrame]? = some f) :
    WF { st with
           grid := v
           frames := st.frames.set st.currentFrame { f with grid := v } } = true := by
  obtain ⟨hw, hh, hne, hcf, hall, hg, hctx⟩ := (WF_iff st).mp hwf
  apply (WF_iff _).mpr
  refine ⟨hw, hh, ?_, by simpa using hcf, ?_, by simpa using hv, by simpa using hctx⟩
  · apply List.ne_nil_of_length_pos
    simpa using List.length_pos_of_ne_nil hne
  · intro f' hf'
    simp only [] at hf'
    rcases List.mem_or_eq_of_mem_set hf' with hmem | rfl
    · simpa using hall f' hmem
    · simpa using hv

theorem toggle_ok {st : PGState} {col row : Nat}
    (hwf : WF st = true) (hcol : col < st.width) (hrow : row < st.height) :
    ∃ f, st.frames[st.currentFrame]? = some f ∧
      _toggle_pixel st col row = .ok
        { st with
            grid := rebuildGrid st.grid st.width st.height col row
                      (flipCell (cellD st.grid col row))
            frames := st.frames.set st.currentFrame
              { f with grid := rebuildGrid st.grid st.width st.height col row
                         (flipCell (cellD st.grid col row)) } } := by
  obtain ⟨hw, hh, hne, hcf, hall, hg, hctx⟩ := (WF_iff st).mp hwf
  obtain ⟨hlen, hcols⟩ := (valid_gridToJVal_iff _ _ _).mp hg
  have hcol' : col < st.grid.length := by omega
  have h1 : st.grid.get? col = some st.grid[col] := by
    rw [List.get?_eq_getElem?]
    exact List.getElem?_eq_getElem hcol'
  have hclen : st.grid[col].length = st.height :=
    (hcols _ (List.getElem_mem hcol')).1
  have hrow' : row < st.grid[col].length := by omega
  have h2 : st.grid[col].get? row = some st.grid[col][row] := by
    rw [List.get?_eq_getElem?]
    exact List.getElem?_eq_getElem hrow'
  have hcell : cellD st.grid col row = st.grid[col][row] := by
    rw [cellD, List.getD_eq_getElem _ _ hcol', List.getD_eq_getElem _ _ hrow']
  have hbin : isBinaryCell (cellD st.grid col row) = true := cellD_binary hg hcol hrow
  obtain ⟨hone, hbflip⟩ := flip_binary hbin
  have hinner : ∀ c', c' < st.width →
      comprehension st.height (fun r' =>
        if c' = col ∧ r' = row then some (flipCell (cellD st.grid col row))
        else (st.grid.get? c').bind (fun cc => cc.get? r')) =
      some ((List.range st.height).map fun r' =>
        if c' = col ∧ r' = row then flipCell (cellD st.grid col row)
        else cellD st.grid c' r') := by
    intro c' hc'
    apply comprehension_eq_map
    intro r' hr'
    by_cases hcr : c' = col ∧ r' = row
    · simp [hcr]
    · have hc'' : c' < st.grid.length := by omega
      have hg1 : st.grid[c']? = some st.grid[c'] := List.getElem?_eq_getElem hc''
      have hr'' : r' < st.grid[c'].length := by
        rw [(hcols _ (List.getElem_mem hc'')).1]; omega
      have hg2 : st.grid[c'][r']? = some st.grid[c'][r'] := List.getElem?_eq_getElem hr''
      have hcd : cellD st.grid c' r' = st.grid[c'][r'] := by
        rw [cellD, List.getD_eq_getElem _ _ hc'', List.getD_eq_getElem _ _ hr'']
      simp [hcr, hg1, hg2, hcd]
  have houter : comprehension st.width (fun c' =>
      comprehension st.height (fun r' =>
        if c' = col ∧ r' = row then some (flipCell (cellD st.grid col row))
        else (st.grid.get? c').bind (fun cc => cc.get? r'))) =
      some (rebuildGrid st.grid st.width st.height col row
        (flipCell (cellD st.grid col row))) := by
    apply comprehension_eq_map
    intro c' hc'
    exact hinner c' hc'
  have hf : st.frames[st.currentFrame]? = some st.frames[st.currentFrame] :=
    List.getElem?_eq_getElem hcf
  refine ⟨st.frames[st.currentFrame], hf, ?_⟩
  have hv' := rebuild_valid hg hbflip col row
  simp only [_toggle_pixel, h1, h2]
  rw [← hcell]
  simp only [hone, houter]
  exact pg_set_grid_ok hv' hctx hf

theorem set_self {α : Type} : ∀ (l : List α) (n : Nat) {a : α},
    l[n]? = some a → l.set n a = l
  | [], n, a, h => by simp at h
  | x :: xs, 0, a, h => by
      simp at h
      simp [List.set, h]
  | x :: xs, n + 1, a, h => by
      simp at h
      simp [List.set, set_self xs n h]

theorem set_append_length {α : Type} (l : List α) (a b : α) :
    (l ++ [a]).set l.length b = l ++ [b] := by
  induction l with
  | nil => rfl
  | cons x xs ih => simp [List.set, ih]

theorem headD_length_of_valid {g : GridL} {w h : Nat} (hw : 0 < w)
    (hv : _is_valid_grid (gridToJVal g) w h = true) :
    (g.headD []).length = h := by
  obtain ⟨hlen, hcols⟩ := (valid_gridToJVal_iff _ _ _).mp hv
  cases g with
  | nil => simp at hlen; omega
  | cons c cs => exact (hcols c (List.mem_cons_self c cs)).1

theorem set_duration_one : set_duration (.jnum 1) = .ok 1 := by
  have h1 : ¬(((1 : Int) : Rat) ≤ 0) := by norm_num
  simp [set_duration, floatCoerce, h1]

theorem frame_init_of_valid {w h : Nat} (hw : 0 < w) {gl : GridL} (ctx0 : FrameCtx)
    (hv : _is_valid_grid (gridToJVal gl) w h = true) :
    frame_init ctx0 gl (.jnum 1) = (.ok ⟨gl, 1⟩, ⟨w, h⟩) := by
  have hlen : gl.length = w := ((valid_gridToJVal_iff _ _ _).mp hv).1
  have hhead : (gl.headD []).length = h := headD_length_of_valid hw hv
  have hhead' : ((gl.head?).getD []).length = h := by
    rw [← List.headD_eq_head?_getD]
    exact hhead
  simp [frame_init, hlen, hhead, hhead', hv, set_duration_one]

theorem add_frame_ok {st : PGState} (hwf : WF st = true) :
    add_frame st = .ok (addFrameResult st) := by
  obtain ⟨hw, hh, hne, hcf, hall, hg, hctx⟩ := (WF_iff st).mp hwf
  have hfi := frame_init_of_valid hw st.frameCtx hg
  have h465 : (st.frames ++ [(⟨st.grid, 1⟩ : Frame)]).isEmpty = false := by
    simp
  have hlt : st.frames.length < (st.frames ++ [(⟨st.grid, 1⟩ : Frame)]).length := by
    simp
  have hget : (st.frames ++ [(⟨st.grid, 1⟩ : Frame)])[st.frames.length]? =
      some ⟨st.grid, 1⟩ := by
    rw [List.getElem?_eq_getElem hlt]
    simp
  have hsg := @pg_set_grid_ok { st with
      frames := st.frames ++ [(⟨st.grid, 1⟩ : Frame)]
      currentFrame := st.frames.length
      frameCtx := ⟨st.width, st.height⟩ } st.grid ⟨st.grid, 1⟩
    hg rfl hget
  simp only [add_frame, hfi, pg_set_frames, h465, Bool.false_eq_true, if_false,
    pg_set_current_frame] at *
  rw [if_pos (by simp)]
  simp only [List.length_append, List.length_cons, List.length_nil, Nat.add_sub_cancel] at *
  rw [hsg]
  simp [addFrameResult, set_append_length]

theorem WF_add {st : PGState} (hwf : WF st = true) :
    WF (addFrameResult st) = true := by
  obtain ⟨hw, hh, hne, hcf, hall, hg, hctx⟩ := (WF_iff st).mp hwf
  apply (WF_iff _).mpr
  refine ⟨hw, hh, by simp [addFrameResult], by simp [addFrameResult], ?_, by simpa [addFrameResult] using hg, by simp [addFrameResult]⟩
  intro f hf
  simp only [addFrameResult, List.mem_append, List.mem_singleton] at hf
  rcases hf with hf | rfl
  · simpa [addFrameResult] using hall f hf
  · simpa [addFrameResult] using hg

theorem WF_goto {st : PGState} (hwf : WF st = true) {i : Nat} {f : Frame}
    (hi : st.frames[i]? = some f) :
    WF { st with currentFrame := i, grid := f.grid } = true := by
  obtain ⟨hw, hh, hne, hcf, hall, hg, hctx⟩ := (WF_iff st).mp hwf
  obtain ⟨hlt, hgetf⟩ := List.getElem?_eq_some.mp hi
  apply (WF_iff _).mpr
  refine ⟨hw, hh, by simpa using hne, by simpa using hlt, by simpa using hall, ?_, by simpa using hctx⟩
  have : f ∈ st.frames := hgetf ▸ List.getElem_mem hlt
  simpa using hall f this

theorem prev_frame_ok {st : PGState} (hwf : WF st = true) (h0 : 0 < st.currentFrame) :
    ∃ f, st.frames[st.currentFrame - 1]? = some f ∧
      prev_frame st = .ok { st with currentFrame := st.currentFrame - 1, grid := f.grid } := by
  obtain ⟨hw, hh, hne, hcf, hall, hg, hctx⟩ := (WF_iff st).mp hwf
  have hlt : st.currentFrame - 1 < st.frames.length := by omega
  have hget : st.frames[st.currentFrame - 1]? = some st.frames[st.currentFrame - 1] :=
    List.getElem?_eq_getElem hlt
  refine ⟨st.frames[st.currentFrame - 1], hget, ?_⟩
  have hvf : _is_valid_grid (gridToJVal st.frames[st.currentFrame - 1].grid)
      st.width st.height = true := hall _ (List.getElem_mem hlt)
  have hsg := @pg_set_grid_ok { st with currentFrame := st.currentFrame - 1 }
    st.frames[st.currentFrame - 1].grid st.frames[st.currentFrame - 1]
    hvf hctx hget
  simp only [prev_frame, h0, if_pos, pg_set_current_frame, if_pos hlt, _load_frame]
  rw [List.get?_eq_getElem?]
  simp only [hget]
  rw [hsg]
  have hset : st.frames.set (st.currentFrame - 1) st.frames[st.currentFrame - 1] = st.frames :=
    set_self _ _ hget
  simp [hset]

theorem next_frame_ok {st : PGState} (hwf : WF st = true)
    (h0 : st.currentFrame < st.frames.length - 1) :
    ∃ f, st.frames[st.currentFrame + 1]? = some f ∧
      next_frame st = .ok { st with currentFrame := st.currentFrame + 1, grid := f.grid } := by
  obtain ⟨hw, hh, hne, hcf, hall, hg, hctx⟩ := (WF_iff st).mp hwf
  have hlt : st.currentFrame + 1 < st.frames.length := by omega
  have hget : st.frames[st.currentFrame + 1]? = some st.frames[st.currentFrame + 1] :=
    List.getElem?_eq_getElem hlt
  refine ⟨st.frames[st.currentFrame + 1], hget, ?_⟩
  have hvf : _is_valid_grid (gridToJVal st.frames[st.currentFrame + 1].grid)
      st.width st.height = true := hall _ (List.getElem_mem hlt)
  have hsg := @pg_set_grid_ok { st with currentFrame := st.currentFrame + 1 }
    st.frames[st.currentFrame + 1].grid st.frames[st.currentFrame + 1]
    hvf hctx hget
  simp only [next_frame, h0, if_pos, pg_set_current_frame, if_pos hlt, _load_frame]
  rw [List.get?_eq_getElem?]
  simp only [hget]
  rw [hsg]
  have hset : st.frames.set (st.currentFrame + 1) st.frames[st.currentFrame + 1] = st.frames :=
    set_self _ _ hget
  simp [hset]

theorem valid_frames_iff (raw : JVal) (w h : Nat) :
    _is_valid_frames raw w h = true ↔
      ∃ gs, raw = .jarr gs ∧ gs ≠ [] ∧ ∀ g ∈ gs, _is_valid_grid g w h = true := by
  cases raw with
  | jarr gs =>
      simp [_is_valid_frames, List.all_eq_true, List.length_pos]
  | jnull => simp [_is_valid_frames]
  | jbool b => simp [_is_valid_frames]
  | jnum q => simp [_is_valid_frames]
  | jstr s => simp [_is_valid_frames]

theorem buildFrames_ok {w h : Nat} (hw : 0 < w) :
    ∀ (grids : List JVal) (ctx0 : FrameCtx),
    (∀ g ∈ grids, _is_valid_grid g w h = true) →
    ∃ gls, asGrids grids = some gls ∧ gls.map gridToJVal = grids ∧
      buildFrames grids ctx0 =
        (.ok (gls.map fun gl => (⟨gl, 1⟩ : Frame)),
          if grids.isEmpty then ctx0 else ⟨w, h⟩)
  | [], ctx0, _ => ⟨[], rfl, rfl, rfl⟩
  | g :: gs, ctx0, hv => by
      obtain ⟨gl, hgl, hback⟩ := asGrid_of_valid (hv g (List.mem_cons_self g gs))
      have hvgl : _is_valid_grid (gridToJVal gl) w h = true := by
        rw [hback]; exact hv g (List.mem_cons_self g gs)
      have hfi := frame_init_of_valid hw ctx0 hvgl
      obtain ⟨gls, hgls, hbacks, hbf⟩ :=
        buildFrames_ok hw gs (⟨w, h⟩ : FrameCtx)
          (fun g' hg' => hv g' (List.mem_cons_of_mem _ hg'))
      refine ⟨gl :: gls, by simp [asGrids, hgl, hgls], by simp [hback, hbacks], ?_⟩
      have hbf' : buildFrames gs (⟨w, h⟩ : FrameCtx) =
          (.ok (gls.map fun gl => (⟨gl, 1⟩ : Frame)), (⟨w, h⟩ : FrameCtx)) := by
        rw [hbf, ite_self]
      simp [buildFrames, hgl, hfi, hbf']

theorem loadGrids_ok {st : PGState} (hwf : WF st = true) {grids : List JVal}
    (hne : grids ≠ []) (hv : ∀ g ∈ grids, _is_valid_grid g st.width st.height = true) :
    ∃ gls, asGrids grids = some gls ∧ gls.map gridToJVal = grids ∧
      loadGrids st grids =
        ({ st with
             frames := gls.map fun gl => ⟨gl, 1⟩
             currentFrame := 0
             grid := gls.headD []
             frameCtx := ⟨st.width, st.height⟩ }, true) := by
  obtain ⟨hw, hh, hfne, hcf, hall, hg, hctx⟩ := (WF_iff st).mp hwf
  obtain ⟨gls, hgls, hback, hbf0⟩ := buildFrames_ok hw grids st.frameCtx hv
  have hbf : buildFrames grids st.frameCtx =
      (.ok (gls.map fun gl => (⟨gl, 1⟩ : Frame)), (⟨st.width, st.height⟩ : FrameCtx)) := by
    rw [hbf0]
    have : grids.isEmpty = false := by
      cases grids with
      | nil => exact absurd rfl hne
      | cons a as => rfl
    rw [this]
    simp
  refine ⟨gls, hgls, hback, ?_⟩
  cases gls with
  | nil => rw [← hback] at hne; simp at hne
  | cons gl0 rest =>
      have hv0 : _is_valid_grid (gridToJVal gl0) st.width st.height = true := by
        have : gridToJVal gl0 ∈ grids := by
          rw [← hback]; exact List.mem_map_of_mem _ (List.mem_cons_self gl0 rest)
        exact hv _ this
      simp [loadGrids, hbf, pg_set_frames, pg_set_current_frame, _load_frame,
        pg_set_grid, frame_set_grid, hv0, List.get?_eq_getElem?]

theorem load_invalid {st : PGState} {raw : JVal}
    (h1 : _is_valid_grid raw st.width st.height = false)
    (h2 : _is_valid_frames raw st.width st.height = false) :
    _handle_Load_from_File st raw = (st, false) := by
  simp [_handle_Load_from_File, h1, h2]

theorem WF_after_load {st : PGState} (hwf : WF st = true) {gls : List GridL}
    (hne : gls ≠ [])
    (hv : ∀ gl ∈ gls, _is_valid_grid (gridToJVal gl) st.width st.height = true) :
    WF { st with
           frames := gls.map fun gl => ⟨gl, 1⟩
           currentFrame := 0
           grid := gls.headD []
           frameCtx := ⟨st.width, st.height⟩ } = true := by
  obtain ⟨hw, hh, _, _, _, _, _⟩ := (WF_iff st).mp hwf
  apply (WF_iff _).mpr
  have hlen : 0 < gls.length := List.length_pos_of_ne_nil hne
  refine ⟨hw, hh, ?_, by simpa using hlen, ?_, ?_, rfl⟩
  · simp [hne]
  · intro f hf
    simp only [List.mem_map] at hf
    obtain ⟨gl, hgl, rfl⟩ := hf
    simpa using hv gl hgl
  · cases gls with
    | nil => exact absurd rfl hne
    | cons gl0 rest => simpa using hv gl0 (List.mem_cons_self gl0 rest)

theorem WF_load {st : PGState} (hwf : WF st = true) (raw : JVal) :
    WF (_handle_Load_from_File st raw).1 = true := by
  by_cases h1 : _is_valid_grid raw st.width st.height = true
  · obtain ⟨gls, hgls, hback, heq⟩ := loadGrids_ok hwf
      (show [raw] ≠ [] from by simp)
      (by intro g hg; rw [List.mem_singleton] at hg; rw [hg]; exact h1)
    have hne' : gls ≠ [] := by
      intro hnil; rw [hnil] at hback; simp at hback
    have hv' : ∀ gl ∈ gls, _is_valid_grid (gridToJVal gl) st.width st.height = true := by
      intro gl hgl
      have hmem : gridToJVal gl ∈ ([raw] : List JVal) := by
        rw [← hback]; exact List.mem_map_of_mem _ hgl
      rw [List.mem_singleton] at hmem
      rw [hmem]; exact h1
    simp only [_handle_Load_from_File, h1, if_true]
    rw [heq]
    exact WF_after_load hwf hne' hv'
  · have h1' : _is_valid_grid raw st.width st.height = false := by
      revert h1; cases _is_valid_grid raw st.width st.height <;> simp
    by_cases h2 : _is_valid_frames raw st.width st.height = true
    · obtain ⟨gs, rfl, hgs, hvgs⟩ := (valid_frames_iff raw _ _).mp h2
      obtain ⟨gls, hgls, hback, heq⟩ := loadGrids_ok hwf hgs hvgs
      have hne' : gls ≠ [] := by
        intro hnil; rw [hnil] at hback; exact hgs hback.symm
      have hv' : ∀ gl ∈ gls, _is_valid_grid (gridToJVal gl) st.width st.height = true := by
        intro gl hgl
        refine hvgs _ ?_
        rw [← hback]; exact List.mem_map_of_mem _ hgl
      simp only [_handle_Load_from_File, h1', Bool.false_eq_true, if_false, h2, if_true]
      rw [heq]
      exact WF_after_load hwf hne' hv'
    · have h2' : _is_valid_frames raw st.width st.height = false := by
        revert h2; cases _is_valid_frames raw st.width st.height <;> simp
      rw [load_invalid h1' h2']
      exact hwf

theorem WFE_toggle {st : PGState} (hwf : WF st = true) (col row : Nat) :
    WFE (_toggle_pixel st col row) = true := by
  obtain ⟨hw, hh, hne, hcf, hall, hg, hctx⟩ := (WF_iff st).mp hwf
  obtain ⟨hlen, hcols⟩ := (valid_gridToJVal_iff _ _ _).mp hg
  by_cases hcol : col < st.width
  · by_cases hrow : row < st.height
    · obtain ⟨f, hf, heq⟩ := toggle_ok hwf hcol hrow
      rw [heq]
      exact WF_set_grid hwf (rebuild_valid hg (flip_binary (cellD_binary hg hcol hrow)).2 col row) hf
    · have hcol' : col < st.grid.length := by omega
      have h1 : st.grid.get? col = some st.grid[col] := by
        rw [List.get?_eq_getElem?]
        exact List.getElem?_eq_getElem hcol'
      have h2 : st.grid[col].get? row = none := by
        rw [List.get?_eq_getElem?]
        apply List.getElem?_eq_none
        rw [(hcols _ (List.getElem_mem hcol')).1]; omega
      simp only [_toggle_pixel, h1, h2]
      rfl
  · have h1 : st.grid.get? col = none := by
      rw [List.get?_eq_getElem?]
      apply List.getElem?_eq_none
      omega
    simp only [_toggle_pixel, h1]
    rfl

theorem listIndex_mem (sel : String) :
    ∀ (names : List String), sel ∈ names →
    ∃ i, listIndex sel names = some i ∧ names[i]? = some sel
  | [], h => absurd h (List.not_mem_nil sel)
  | x :: xs, h => by
      by_cases hx : x = sel
      · exact ⟨0, by simp [listIndex, hx], by simp [hx]⟩
      · have hmem : sel ∈ xs := by
          rcases List.mem_cons.mp h with rfl | hm
          · exact absurd rfl hx
          · exact hm
        obtain ⟨i, hi, hg⟩ := listIndex_mem sel xs hmem
        exact ⟨i + 1, by simp [listIndex, hx, hi], by simpa using hg⟩

theorem pyCellEq_refl {a : JVal} (hb : isBinaryCell a = true) :
    pyCellEq a a = true := by
  cases a <;> simp_all [pyCellEq, cellNum, isBinaryCell]

theorem flip_flip_pyEq {a : JVal} (hb : isBinaryCell a = true) :
    pyCellEq (flipCell (flipCell a)) a = true := by
  cases a with
  | jnum q => simp [flipCell, cellNum, pyCellEq]
  | jbool b => cases b <;> rfl
  | jnull => simp [isBinaryCell] at hb
  | jstr s => simp [isBinaryCell] at hb
  | jarr xs => simp [isBinaryCell] at hb

theorem flip_flip_num {a : JVal} (hn : numCell a = true) :
    flipCell (flipCell a) = a := by
  cases a with
  | jnum q => simp [flipCell, cellNum]
  | jbool b => simp [numCell] at hn
  | jnull => simp [numCell] at hn
  | jstr s => simp [numCell] at hn
  | jarr xs => simp [numCell] at hn

theorem rowPyEq_forall2 : ∀ (xs ys : List JVal),
    rowPyEq xs ys = true ↔ List.Forall₂ (fun a b => pyCellEq a b = true) xs ys
  | [], [] => by simp [rowPyEq]
  | [], y :: ys => by
      simp only [rowPyEq, Bool.false_eq_true, false_iff]
      intro h; cases h
  | x :: xs, [] => by
      simp only [rowPyEq, Bool.false_eq_true, false_iff]
      intro h; cases h
  | x :: xs, y :: ys => by
      rw [rowPyEq, Bool.and_eq_true, rowPyEq_forall2 xs ys, List.forall₂_cons]

theorem gridPyEq_forall2 : ∀ (g1 g2 : GridL),
    gridPyEq g1 g2 = true ↔ List.Forall₂ (fun a b => rowPyEq a b = true) g1 g2
  | [], [] => by simp [gridPyEq]
  | [], y :: ys => by
      simp only [gridPyEq, Bool.false_eq_true, false_iff]
      intro h; cases h
  | x :: xs, [] => by
      simp only [gridPyEq, Bool.false_eq_true, false_iff]
      intro h; cases h
  | x :: xs, y :: ys => by
      rw [gridPyEq, Bool.and_eq_true, gridPyEq_forall2 xs ys, List.forall₂_cons]

theorem rebuild_rebuild {g : GridL} {w h col row : Nat} (u v2 : JVal) :
    rebuildGrid (rebuildGrid g w h col row u) w h col row v2 =
      rebuildGrid g w h col row v2 := by
  unfold rebuildGrid
  apply List.map_congr_left
  intro c hc
  apply List.map_congr_left
  intro r hr
  rw [List.mem_range] at hc hr
  by_cases hcr : c = col ∧ r = row
  · simp [hcr]
  · simp only [if_neg hcr]
    rw [show cellD ((List.range w).map fun c' => (List.range h).map fun r' =>
          if c' = col ∧ r' = row then u else cellD g c' r') c r =
        cellD (rebuildGrid g w h col row u) c r from rfl]
    rw [cellD_rebuild u hc hr col row]
    simp [hcr]

theorem rebuild_self_eq {g : GridL} {w h col row : Nat}
    (hlen : g.length = w) (hcols : ∀ c ∈ g, c.length = h)
    (hcol : col < w) (hrow : row < h) :
    rebuildGrid g w h col row (cellD g col row) = g := by
  unfold rebuildGrid
  have hcongr : ∀ c ∈ List.range w,
      ((List.range h).map fun r =>
        if c = col ∧ r = row then cellD g col row else cellD g c r) =
      (List.range h).map fun r => cellD g c r := by
    intro c _
    apply List.map_congr_left
    intro r _
    by_cases hcr : c = col ∧ r = row
    · obtain ⟨rfl, rfl⟩ := hcr; simp
    · simp [hcr]
  rw [List.map_congr_left hcongr, ← hlen]
  exact map_range_cellD g h hcols

theorem gridPyEq_rebuild {g : GridL} {w h col row : Nat}
    (hg : _is_valid_grid (gridToJVal g) w h = true)
    (hcol : col < w) (hrow : row < h) {v2 : JVal}
    (hpy : pyCellEq v2 (cellD g col row) = true) :
    gridPyEq (rebuildGrid g w h col row v2) g = true := by
  obtain ⟨hlen, hcols⟩ := (valid_gridToJVal_iff _ _ _).mp hg
  rw [gridPyEq_forall2, List.forall₂_iff_get]
  refine ⟨by simp [rebuildGrid, hlen], ?_⟩
  intro i h1 h2
  have hi : i < w := by simpa [rebuildGrid] using h1
  have e1 : (rebuildGrid g w h col row v2).get ⟨i, h1⟩ =
      (List.range h).map fun r => if i = col ∧ r = row then v2 else cellD g i r := by
    simp [rebuildGrid, List.get_eq_getElem]
  have hgm : g.get ⟨i, h2⟩ ∈ g := by
    rw [List.get_eq_getElem]
    exact List.getElem_mem h2
  have hglen : (g.get ⟨i, h2⟩).length = h := (hcols _ hgm).1
  rw [e1, rowPyEq_forall2, List.forall₂_iff_get]
  refine ⟨by rw [List.get_eq_getElem] at hglen; simp [hglen], ?_⟩
  intro j hj1 hj2
  have hj : j < h := by simpa using hj1
  have e2 : List.get ((List.range h).map fun r =>
        if i = col ∧ r = row then v2 else cellD g i r) ⟨j, hj1⟩ =
      if i = col ∧ j = row then v2 else cellD g i j := by
    simp [List.get_eq_getElem]
  have hi' : i < g.length := by omega
  have e3 : (g.get ⟨i, h2⟩).get ⟨j, hj2⟩ = cellD g i j := by
    have hj2' := hj2
    simp only [List.get_eq_getElem] at hj2' ⊢
    rw [cellD, List.getD_eq_getElem g [] hi', List.getD_eq_getElem _ _ hj2']
  rw [e2, e3]
  by_cases hcr : i = col ∧ j = row
  · obtain ⟨rfl, rfl⟩ := hcr
    simpa using hpy
  · simp only [if_neg hcr]
    exact pyCellEq_refl (cellD_binary hg hi hj)

theorem cellD_num {g : GridL} (hn : numGrid g = true) {c r : Nat}
    (hc : c < g.length) (hr : r < (g.getD c []).length) :
    numCell (cellD g c r) = true := by
  rw [numGrid, List.all_eq_true] at hn
  have h1 := hn _ (getD_mem hc [])
  rw [List.all_eq_true] at h1
  exact h1 _ (getD_mem hr _)

/-! ### Claim theorems -/

/-- C1, counterexample: with the class-wide expected shape set to the
editor's default 9 x 34, constructing a `Frame` from the 1 x 1 candidate
grid `[[0]]` — whose dimensions differ from the expected ones — does not
fail: it succeeds and silently overwrites the expected shape with 1 x 1. -/
theorem C1_counterexample :
    (frame_init ⟨9, 34⟩ [[.jnum 0]] (.jnum 1)).1 = .ok ⟨[[.jnum 0]], 1⟩ ∧
    (frame_init ⟨9, 34⟩ [[.jnum 0]] (.jnum 1)).2 = ⟨1, 1⟩ ∧
    (FrameCtx.mk 1 1 ≠ FrameCtx.mk 9 34) := by
  have h := @frame_init_of_valid 1 1 (by decide) [[.jnum 0]] ⟨9, 34⟩ (by rfl)
  exact ⟨by rw [h], by rw [h], by decide⟩

/-- C1, amended: `Frame.__init__` first overwrites the class-wide expected
width/height with the dimensions derived from the candidate itself
(`len(grid)`, `len(grid[0]) if grid else 0`), and only then validates, so
construction never fails merely because the candidate's dimensions differ
from the previously-expected ones: it succeeds exactly when the candidate
is a rectangular 0/1 grid of its own derived dimensions.  Mutating an
existing frame's grid through the `Frame.grid` setter, by contrast, does
validate the candidate against the currently-expected class-wide
width/height and raises a shape `ValueError` exactly on mismatch. -/
theorem C1_amended (ctx0 : FrameCtx) (g : GridL) (f : Frame) (v : GridL) :
    ((frame_init ctx0 g (.jnum 1)).1 = .ok ⟨g, 1⟩ ↔
      _is_valid_grid (gridToJVal g) g.length (g.headD []).length = true) ∧
    (frame_init ctx0 g (.jnum 1)).2 = ⟨g.length, (g.headD []).length⟩ ∧
    (frame_set_grid ctx0 f v = .ok { f with grid := v } ↔
      _is_valid_grid (gridToJVal v) ctx0.width ctx0.height = true) := by
  refine ⟨?_, rfl, ?_⟩
  · by_cases hv : _is_valid_grid (gridToJVal g) g.length (g.headD []).length = true
    · simp [frame_init, hv, set_duration_one]
    · have hv' : _is_valid_grid (gridToJVal g) g.length (g.headD []).length = false := by
        revert hv; cases _is_valid_grid (gridToJVal g) g.length (g.headD []).length <;> simp
      simp [frame_init, hv', set_duration_one]
  · by_cases hv : _is_valid_grid (gridToJVal v) ctx0.width ctx0.height = true
    · simp [frame_set_grid, hv]
    · have hv' : _is_valid_grid (gridToJVal v) ctx0.width ctx0.height = false := by
        revert hv; cases _is_valid_grid (gridToJVal v) ctx0.width ctx0.height <;> simp
      simp [frame_set_grid, hv']

/-- C10: constructing a `Frame` succeeds for every candidate that is a list
of equal-length lists with all cells in {0, 1}, whatever its dimensions,
because the constructor derives the expected width and height from the
candidate itself; in particular the empty grid `Frame([])` succeeds and
sets the class-wide context to width 0, height 0. -/
theorem C10_any_shape_accepted (ctx0 : FrameCtx) (g : GridL)
    (hrect : ∀ col ∈ g, col.length = (g.headD []).length ∧
      ∀ cell ∈ col, cell = .jnum 0 ∨ cell = .jnum 1) :
    frame_init ctx0 g (.jnum 1) = (.ok ⟨g, 1⟩, ⟨g.length, (g.headD []).length⟩) ∧
    frame_init ctx0 [] (.jnum 1) = (.ok ⟨[], 1⟩, ⟨0, 0⟩) := by
  refine ⟨?_, rfl⟩
  have hv : _is_valid_grid (gridToJVal g) g.length (g.headD []).length = true := by
    apply (valid_gridToJVal_iff _ _ _).mpr
    refine ⟨rfl, ?_⟩
    intro col hcol
    refine ⟨(hrect col hcol).1, ?_⟩
    intro cell hcell
    rcases (hrect col hcol).2 cell hcell with rfl | rfl <;> rfl
  have hv' : _is_valid_grid (gridToJVal g) g.length ((g.head?).getD []).length = true := by
    rw [← List.headD_eq_head?_getD]
    exact hv
  simp [frame_init, hv, hv', set_duration_one]

/-- C10, witness: a 2 x 1 all-binary grid and the empty grid are both
accepted regardless of the 9 x 34 expected context. -/
theorem C10_witness :
    frame_init ⟨9, 34⟩ [[.jnum 0], [.jnum 1]] (.jnum 1) =
      (.ok ⟨[[.jnum 0], [.jnum 1]], 1⟩, ⟨2, 1⟩) ∧
    frame_init ⟨9, 34⟩ [] (.jnum 1) = (.ok ⟨[], 1⟩, ⟨0, 0⟩) :=
  C10_any_shape_accepted ⟨9, 34⟩ [[.jnum 0], [.jnum 1]] (by simp)

/-- C3: setting a Frame's duration (at construction or by mutation) raises
exactly when the value is not numeric — `float` coercion fails, which for
strings means the string is not a float literal (`float("2.5")` succeeds
and stores 5/2; `float("abc")` does not) — re-raised as `TypeError`, or
when the coerced value is not strictly positive (`ValueError`); otherwise
the coerced number is stored.  A frame constructed with the default
duration (the omitted-argument value `1.0`) has duration 1.  IEEE special
values (`inf`/`nan` spellings, double rounding/overflow) are outside this
real-number model, as documented on `pyFloatParse`. -/
theorem C3_duration (v : JVal) (ctx0 : FrameCtx) (g : GridL)
    (hg : _is_valid_grid (gridToJVal g) g.length (g.headD []).length = true) :
    (floatCoerce v = none → set_duration v = .error .typeError) ∧
    (floatCoerce v ≠ none →
      ((floatCoerce v).getD 0 ≤ 0 → set_duration v = .error .valueError) ∧
      (0 < (floatCoerce v).getD 0 → set_duration v = .ok ((floatCoerce v).getD 0))) ∧
    ((frame_init ctx0 g v).1 = (set_duration v).map fun d => ⟨g, d⟩) ∧
    (frame_init ctx0 g (.jnum 1)).1 = .ok ⟨g, 1⟩ := by
  have hg' : _is_valid_grid (gridToJVal g) g.length ((g.head?).getD []).length = true := by
    rw [← List.headD_eq_head?_getD]
    exact hg
  refine ⟨?_, ?_, ?_, ?_⟩
  · intro hnone
    simp [set_duration, hnone]
  · intro hsome
    cases hfc : floatCoerce v with
    | none => exact absurd hfc hsome
    | some q =>
        constructor
        · intro hle
          simp only [hfc, Option.getD_some] at hle
          simp [set_duration, hfc, hle]
        · intro hpos
          simp only [hfc, Option.getD_some] at hpos
          simp [set_duration, hfc, not_le.mpr hpos]
  · cases hsd : set_duration v with
    | ok d => simp [frame_init, hg', hsd, Except.map]
    | error e => simp [frame_init, hg', hsd, Except.map]
  · simp [frame_init, hg', set_duration_one]

/-- C3, witness: the duration value 2 is numeric and positive, so it is
stored as given; the checked 1 x 1 grid builds a frame with it. -/
theorem C3_witness :
    (floatCoerce (.jnum 2) = none → set_duration (.jnum 2) = .error .typeError) ∧
    (floatCoerce (.jnum 2) ≠ none →
      ((floatCoerce (.jnum 2)).getD 0 ≤ 0 → set_duration (.jnum 2) = .error .valueError) ∧
      (0 < (floatCoerce (.jnum 2)).getD 0 →
        set_duration (.jnum 2) = .ok ((floatCoerce (.jnum 2)).getD 0))) ∧
    ((frame_init ⟨1, 1⟩ [[.jnum 0]] (.jnum 2)).1 =
      (set_duration (.jnum 2)).map fun d => ⟨[[.jnum 0]], d⟩) ∧
    (frame_init ⟨1, 1⟩ [[.jnum 0]] (.jnum 1)).1 = .ok ⟨[[.jnum 0]], 1⟩ :=
  C3_duration (.jnum 2) ⟨1, 1⟩ [[.jnum 0]] (by rfl)

/-- C5: under the editor invariant, `add_frame` appends exactly one new
frame holding a copy of the current grid at the end of the sequence, the
prior frames are unchanged and in order, the length grows by exactly one,
and the cursor moves to the new last index; the invariant is preserved. -/
theorem C5_add_frame (st : PGState) (hwf : WF st = true) :
    add_frame st = .ok (addFrameResult st) ∧
    (addFrameResult st).frames.length = st.frames.length + 1 ∧
    (addFrameResult st).frames.take st.frames.length = st.frames ∧
    (addFrameResult st).currentFrame = (addFrameResult st).frames.length - 1 ∧
    (addFrameResult st).frames.getLast? = some ⟨st.grid, 1⟩ ∧
    WF (addFrameResult st) = true := by
  refine ⟨add_frame_ok hwf, by simp [addFrameResult], ?_, by simp [addFrameResult], ?_, WF_add hwf⟩
  · simp [addFrameResult, List.take_left]
  · simp [addFrameResult]

/-- C5, witness: adding a frame to the one-frame 1 x 1 editor state. -/
theorem C5_witness :
    add_frame exSt1 = .ok (addFrameResult exSt1) ∧
    (addFrameResult exSt1).frames.length = exSt1.frames.length + 1 ∧
    (addFrameResult exSt1).frames.take exSt1.frames.length = exSt1.frames ∧
    (addFrameResult exSt1).currentFrame = (addFrameResult exSt1).frames.length - 1 ∧
    (addFrameResult exSt1).frames.getLast? = some ⟨exSt1.grid, 1⟩ ∧
    WF (addFrameResult exSt1) = true :=
  C5_add_frame exSt1 (by rfl)

/-- C7: export — in memory and to file — produces the list of all frames'
grids when more than one frame exists, and the single frame's bare grid
(not wrapped in a list) when exactly one does; the in-memory export and
the serialized file value are computed by the same expression, hence share
the asymmetric shape. -/
theorem C7_export (st : PGState) (hne : st.frames ≠ []) :
    _handle_Export st = .ok (if 1 < st.frames.length
        then .jarr (st.frames.map fun f => gridToJVal f.grid)
        else gridToJVal (st.frames.headD ⟨[], 1⟩).grid) ∧
    _handle_Export_to_File st = _handle_Export st := by
  refine ⟨?_, rfl⟩
  by_cases h : 1 < st.frames.length
  · simp [_handle_Export, h]
  · cases hfr : st.frames with
    | nil => exact absurd hfr hne
    | cons f0 rest =>
        rw [hfr] at h
        have hr0 : rest.length = 0 := by
          simp only [List.length_cons] at h
          omega
        simp [_handle_Export, hfr, h, hr0]

/-- C7, witness: the two-frame 2 x 1 state exports the full list of grids,
and the file export value coincides. -/
theorem C7_witness :
    _handle_Export exSt2 = .ok (if 1 < exSt2.frames.length
        then .jarr (exSt2.frames.map fun f => gridToJVal f.grid)
        else gridToJVal (exSt2.frames.headD ⟨[], 1⟩).grid) ∧
    _handle_Export_to_File exSt2 = _handle_Export exSt2 :=
  C7_export exSt2 (by simp [exSt2])

/-- C9: when the selection is the sentinel `'All'`, `handle_identify`
launches exactly one identify task per controller of the current list, in
list order (the launched-thread list is the controller list itself); for
any other selection present among the controller names it launches exactly
one task, targeting a controller whose name equals the selection. -/
theorem C9_identify (cs : List Controller) (s : IdentifySession) (sel : String)
    (h1 : sel ≠ allSentinel) (h2 : sel ∈ cs.map Controller.name) :
    handle_identify cs allSentinel s = .ok ⟨true, cs⟩ ∧
    ∃ c, handle_identify cs sel s = .ok ⟨true, [c]⟩ ∧ c.name = sel ∧ c ∈ cs := by
  refine ⟨by simp [handle_identify], ?_⟩
  obtain ⟨i, hi, hg⟩ := listIndex_mem sel (cs.map Controller.name) h2
  rw [List.getElem?_map] at hg
  cases hc : cs[i]? with
  | none => rw [hc] at hg; simp at hg
  | some c =>
      rw [hc] at hg
      simp only [Option.map_some'] at hg
      have hname : c.name = sel := by
        injection hg
      refine ⟨c, ?_, hname, ?_⟩
      · simp [handle_identify, h1, hi, List.get?_eq_getElem?, hc]
      · obtain ⟨hlt, hgetc⟩ := List.getElem?_eq_some.mp hc
        exact hgetc ▸ List.getElem_mem hlt

/-- C9, witness: with two controllers, selecting `'All'` launches one task
per controller in order, and selecting the second controller's name
launches exactly one task for it. -/
theorem C9_witness :
    handle_identify exControllers allSentinel ⟨false, []⟩ = .ok ⟨true, exControllers⟩ ∧
    ∃ c, handle_identify exControllers exSel ⟨false, []⟩ = .ok ⟨true, [c]⟩ ∧
      c.name = exSel ∧ c ∈ exControllers :=
  C9_identify exControllers ⟨false, []⟩ exSel (by decide) (by decide)

/-- C2: loading a JSON value that is neither a single valid
width-by-height grid nor a non-empty list of such grids reports an error
and leaves the whole editor state — frame sequence and cursor included —
exactly as it was; a valid single grid replaces the frame sequence by that
one grid's frame, and a valid non-empty list of grids replaces it by their
frames, resetting the cursor to 0 in both cases (the loaded grids are
copied into fresh frames with the default duration). -/
theorem C2_load (st : PGState) (raw : JVal) (hwf : WF st = true) :
    (_is_valid_grid raw st.width st.height = false →
     _is_valid_frames raw st.width st.height = false →
     _handle_Load_from_File st raw = (st, false)) ∧
    (_is_valid_grid raw st.width st.height = true →
      ∃ gl, asGrid raw = some gl ∧
        _handle_Load_from_File st raw =
          ({ st with
               frames := [⟨gl, 1⟩]
               currentFrame := 0
               grid := gl
               frameCtx := ⟨st.width, st.height⟩ }, true)) ∧
    (_is_valid_grid raw st.width st.height = false →
     _is_valid_frames raw st.width st.height = true →
      ∃ gs gls, raw = .jarr gs ∧ asGrids gs = some gls ∧
        _handle_Load_from_File st raw =
          ({ st with
               frames := gls.map fun gl => ⟨gl, 1⟩
               currentFrame := 0
               grid := gls.headD []
               frameCtx := ⟨st.width, st.height⟩ }, true)) := by
  refine ⟨fun h1 h2 => load_invalid h1 h2, ?_, ?_⟩
  · intro h1
    obtain ⟨gl, hgl, hback⟩ := asGrid_of_valid h1
    obtain ⟨gls, hgls, hbacks, heq⟩ := loadGrids_ok hwf
      (show [raw] ≠ [] from by simp)
      (by intro g hg; rw [List.mem_singleton] at hg; rw [hg]; exact h1)
    have hgls' : asGrids [raw] = some [gl] := by
      simp [asGrids, hgl]
    have hglseq : gls = [gl] := by
      rw [hgls] at hgls'
      exact Option.some_inj.mp hgls'
    subst hglseq
    refine ⟨gl, hgl, ?_⟩
    simp only [_handle_Load_from_File, h1, if_true]
    rw [heq]
    simp
  · intro h1 h2
    obtain ⟨gs, rfl, hgs, hvgs⟩ := (valid_frames_iff _ _ _).mp h2
    obtain ⟨gls, hgls, hbacks, heq⟩ := loadGrids_ok hwf hgs hvgs
    refine ⟨gs, gls, rfl, hgls, ?_⟩
    simp only [_handle_Load_from_File, h1, Bool.false_eq_true, if_false, h2, if_true]
    exact heq

/-- C2, witness: loading the empty JSON array into the 1 x 1 editor state
is rejected by both classifiers and leaves the state untouched. -/
theorem C2_witness :
    (_is_valid_grid (.jarr []) exSt1.width exSt1.height = false →
     _is_valid_frames (.jarr []) exSt1.width exSt1.height = false →
     _handle_Load_from_File exSt1 (.jarr []) = (exSt1, false)) ∧
    (_is_valid_grid (.jarr []) exSt1.width exSt1.height = true →
      ∃ gl, asGrid (.jarr []) = some gl ∧
        _handle_Load_from_File exSt1 (.jarr []) =
          ({ exSt1 with
               frames := [⟨gl, 1⟩]
               currentFrame := 0
               grid := gl
               frameCtx := ⟨exSt1.width, exSt1.height⟩ }, true)) ∧
    (_is_valid_grid (.jarr []) exSt1.width exSt1.height = false →
     _is_valid_frames (.jarr []) exSt1.width exSt1.height = true →
      ∃ gs gls, (JVal.jarr []) = .jarr gs ∧ asGrids gs = some gls ∧
        _handle_Load_from_File exSt1 (.jarr []) =
          ({ exSt1 with
               frames := gls.map fun gl => ⟨gl, 1⟩
               currentFrame := 0
               grid := gls.headD []
               frameCtx := ⟨exSt1.width, exSt1.height⟩ }, true)) :=
  C2_load exSt1 (.jarr []) (by rfl)

/-- C8: for a one-frame editor state, exporting to file writes the single
bare grid, and loading that value back yields a single-frame sequence
whose grid equals the original grid exactly (with the cursor at 0). -/
theorem C8_roundtrip (st : PGState) (hwf : WF st = true)
    (hone : st.frames.length = 1) :
    _handle_Export_to_File st = .ok (gridToJVal (st.frames.headD ⟨[], 1⟩).grid) ∧
    _handle_Load_from_File st (gridToJVal (st.frames.headD ⟨[], 1⟩).grid) =
      ({ st with
           frames := [⟨(st.frames.headD ⟨[], 1⟩).grid, 1⟩]
           currentFrame := 0
           grid := (st.frames.headD ⟨[], 1⟩).grid
           frameCtx := ⟨st.width, st.height⟩ }, true) := by
  obtain ⟨hw, hh, hne, hcf, hall, hg, hctx⟩ := (WF_iff st).mp hwf
  cases hfr : st.frames with
  | nil => rw [hfr] at hone; simp at hone
  | cons f0 rest =>
      have hrest : rest = [] := by
        rw [hfr] at hone
        simp only [List.length_cons] at hone
        exact List.eq_nil_of_length_eq_zero (by omega)
      subst hrest
      have hmem : f0 ∈ st.frames := by rw [hfr]; exact List.mem_cons_self f0 []
      have hv : _is_valid_grid (gridToJVal f0.grid) st.width st.height = true :=
        hall f0 hmem
      constructor
      · simp [_handle_Export_to_File, hfr]
      · obtain ⟨gls, hgls, hbacks, heq⟩ := loadGrids_ok hwf
          (show [gridToJVal f0.grid] ≠ [] from by simp)
          (by intro g hgm; rw [List.mem_singleton] at hgm; rw [hgm]; exact hv)
        have hgls' : asGrids [gridToJVal f0.grid] = some [f0.grid] := by
          simp [asGrids, asGrid_gridToJVal]
        have hglseq : gls = [f0.grid] := by
          rw [hgls] at hgls'
          exact Option.some_inj.mp hgls'
        subst hglseq
        simp only [hfr, List.headD_cons]
        simp only [_handle_Load_from_File, hv, if_true]
        rw [heq]
        simp [hfr]

/-- C8, witness: round-tripping the one-frame 1 x 1 editor state. -/
theorem C8_witness :
    _handle_Export_to_File exSt1 =
      .ok (gridToJVal (exSt1.frames.headD ⟨[], 1⟩).grid) ∧
    _handle_Load_from_File exSt1 (gridToJVal (exSt1.frames.headD ⟨[], 1⟩).grid) =
      ({ exSt1 with
           frames := [⟨(exSt1.frames.headD ⟨[], 1⟩).grid, 1⟩]
           currentFrame := 0
           grid := (exSt1.frames.headD ⟨[], 1⟩).grid
           frameCtx := ⟨exSt1.width, exSt1.height⟩ }, true) :=
  C8_roundtrip exSt1 (by rfl) (by rfl)

/-- C6: under the editor invariant — non-empty frame sequence and cursor
in `[0, len(frames))`, together with the shape conditions that make it
inductive — every editor operation (toggle, add frame, prev, next, load)
preserves the invariant on its resulting state, and `prev_frame` at index
0 and `next_frame` at the last index leave the state entirely unchanged
(the cursor is clamped, no wraparound). -/
theorem C6_invariants (st : PGState) (col row : Nat) (raw : JVal)
    (hwf : WF st = true) :
    WFE (_toggle_pixel st col row) = true ∧
    WFE (add_frame st) = true ∧
    WFE (prev_frame st) = true ∧
    WFE (next_frame st) = true ∧
    WF (_handle_Load_from_File st raw).1 = true ∧
    (st.currentFrame = 0 → prev_frame st = .ok st) ∧
    (st.currentFrame = st.frames.length - 1 → next_frame st = .ok st) := by
  refine ⟨WFE_toggle hwf col row, ?_, ?_, ?_, WF_load hwf raw, ?_, ?_⟩
  · rw [add_frame_ok hwf]
    exact WF_add hwf
  · by_cases h0 : 0 < st.currentFrame
    · obtain ⟨f, hf, heq⟩ := prev_frame_ok hwf h0
      rw [heq]
      exact WF_goto hwf hf
    · have : prev_frame st = .ok st := by
        simp [prev_frame, h0]
      rw [this]
      exact hwf
  · by_cases h0 : st.currentFrame < st.frames.length - 1
    · obtain ⟨f, hf, heq⟩ := next_frame_ok hwf h0
      rw [heq]
      exact WF_goto hwf hf
    · have : next_frame st = .ok st := by
        simp [next_frame, h0]
      rw [this]
      exact hwf
  · intro h0
    simp [prev_frame, h0]
  · intro hlast
    have : ¬ st.currentFrame < st.frames.length - 1 := by omega
    simp [next_frame, this]

/-- C6, witness: the invariant holds after each operation on the one-frame
1 x 1 state, and prev/next are no-ops there (cursor 0 is both first and
last). -/
theorem C6_witness :
    WFE (_toggle_pixel exSt1 0 0) = true ∧
    WFE (add_frame exSt1) = true ∧
    WFE (prev_frame exSt1) = true ∧
    WFE (next_frame exSt1) = true ∧
    WF (_handle_Load_from_File exSt1 (.jnum 5)).1 = true ∧
    (exSt1.currentFrame = 0 → prev_frame exSt1 = .ok exSt1) ∧
    (exSt1.currentFrame = exSt1.frames.length - 1 → next_frame exSt1 = .ok exSt1) :=
  C6_invariants exSt1 0 0 (.jnum 5) (by rfl)

/-- C4: for every in-bounds cell position, toggling rewrites the whole
grid as a fresh value in which exactly that cell is flipped (`1 - old`)
and every other cell — and every other frame of the sequence — is left
unchanged; toggling the same cell again restores the current grid to its
original value: up to Python `==` in general (a loaded boolean cell comes
back as its equal numeric value), and as the identical value whenever the
grid's cells are plain numbers, as all editor-drawn grids are. -/
theorem C4_toggle (st : PGState) (col row : Nat) (hwf : WF st = true)
    (hcol : col < st.width) (hrow : row < st.height) :
    ∃ st' st'',
      _toggle_pixel st col row = .ok st' ∧
      cellD st'.grid col row = flipCell (cellD st.grid col row) ∧
      (∀ c r, c < st.width → r < st.height → ¬(c = col ∧ r = row) →
        cellD st'.grid c r = cellD st.grid c r) ∧
      (∀ i, i ≠ st.currentFrame → st'.frames[i]? = st.frames[i]?) ∧
      _toggle_pixel st' col row = .ok st'' ∧
      gridPyEq st''.grid st.grid = true ∧
      (numGrid st.grid = true → st''.grid = st.grid) := by
  obtain ⟨hw, hh, hne, hcf, hall, hg, hctx⟩ := (WF_iff st).mp hwf
  obtain ⟨hlen, hcols⟩ := (valid_gridToJVal_iff _ _ _).mp hg
  have hbcell : isBinaryCell (cellD st.grid col row) = true := cellD_binary hg hcol hrow
  have hb1 : isBinaryCell (flipCell (cellD st.grid col row)) = true := (flip_binary hbcell).2
  obtain ⟨f, hf, heq1⟩ := toggle_ok hwf hcol hrow
  have hwf' := WF_set_grid hwf (rebuild_valid hg hb1 col row) hf
  obtain ⟨f', hf', heq2⟩ := toggle_ok hwf' hcol hrow
  have hc1 : cellD (rebuildGrid st.grid st.width st.height col row
      (flipCell (cellD st.grid col row))) col row = flipCell (cellD st.grid col row) := by
    rw [cellD_rebuild (flipCell (cellD st.grid col row)) hcol hrow col row]
    simp
  refine ⟨_, _, heq1, ?_, ?_, ?_, heq2, ?_, ?_⟩
  · exact hc1
  · intro c r hc hr hcr
    show cellD (rebuildGrid st.grid st.width st.height col row
        (flipCell (cellD st.grid col row))) c r = cellD st.grid c r
    rw [cellD_rebuild (flipCell (cellD st.grid col row)) hc hr col row]
    simp [hcr]
  · intro i hi
    show (st.frames.set st.currentFrame _)[i]? = st.frames[i]?
    exact List.getElem?_set_ne (Ne.symm hi)
  · show gridPyEq (rebuildGrid (rebuildGrid st.grid st.width st.height col row
        (flipCell (cellD st.grid col row))) st.width st.height col row
        (flipCell (cellD (rebuildGrid st.grid st.width st.height col row
          (flipCell (cellD st.grid col row))) col row))) st.grid = true
    rw [hc1, rebuild_rebuild]
    exact gridPyEq_rebuild hg hcol hrow (flip_flip_pyEq hbcell)
  · intro hnum
    have hnc : numCell (cellD st.grid col row) = true := by
      apply cellD_num hnum (by omega)
      rw [(hcols _ (getD_mem (by omega) [])).1]
      omega
    have hff : flipCell (flipCell (cellD st.grid col row)) = cellD st.grid col row :=
      flip_flip_num hnc
    show rebuildGrid (rebuildGrid st.grid st.width st.height col row
        (flipCell (cellD st.grid col row))) st.width st.height col row
        (flipCell (cellD (rebuildGrid st.grid st.width st.height col row
          (flipCell (cellD st.grid col row))) col row)) = st.grid
    rw [hc1, rebuild_rebuild, hff]
    exact rebuild_self_eq hlen (fun c hc => (hcols c hc).1) hcol hrow

/-- C4, witness: toggling cell (0, 0) of the all-numeric 1 x 1 state twice
flips it and then restores the original grid exactly. -/
theorem C4_witness :
    ∃ st' st'',
      _toggle_pixel exSt1 0 0 = .ok st' ∧
      cellD st'.grid 0 0 = flipCell (cellD exSt1.grid 0 0) ∧
      (∀ c r, c < exSt1.width → r < exSt1.height → ¬(c = 0 ∧ r = 0) →
        cellD st'.grid c r = cellD exSt1.grid c r) ∧
      (∀ i, i ≠ exSt1.currentFrame → st'.frames[i]? = exSt1.frames[i]?) ∧
      _toggle_pixel st' 0 0 = .ok st'' ∧
      gridPyEq st''.grid exSt1.grid = true ∧
      (numGrid exSt1.grid = true → st''.grid = exSt1.grid) :=
  C4_toggle exSt1 0 0 (by rfl) (by decide) (by decide)

end WebLEDMatrix
